import Mathlib

/-!
Verification development for the TailorTalk calendar-agent backend
(`backend/main.py`).

The development shallowly embeds the two calendar tool functions
(`check_calendar_availability`, `book_appointment`) and the chat endpoint
(`chat_with_agent`) as pure Lean functions.  External effects are made
explicit:

* the Google Calendar service is a `Gateway` record whose operations may
  fail (`Except`), and every call the tools issue is recorded in a
  `GatewayCall` log;
* Python exceptions caught by the `try/except` blocks of the tools become
  `Option`/`Except` failure branches that produce the same error strings
  the handlers produce;
* the Python standard-library functions the tools rely on
  (`datetime.fromisoformat`, `datetime + timedelta(hours=1)`,
  `datetime.strftime`, `str.strip`, `str.replace`, `json.loads`) are
  modelled executably below, faithful to the formats the tools exercise.
-/

set_option maxRecDepth 40000

/-- The single-quote character, written by code point to keep source text free
of literal quote characters. -/
def squoteChar : Char := Char.ofNat 39

/-- The double-quote character. -/
def dquoteChar : Char := Char.ofNat 34

/-- The backslash character (JSON escape introducer). -/
def backslashChar : Char := Char.ofNat 92

/-- The opening-brace character of a JSON object. -/
def lbraceChar : Char := Char.ofNat 123

/-- The closing-brace character of a JSON object. -/
def rbraceChar : Char := Char.ofNat 125

/-- One-character string holding a single quote. -/
def squote : String := String.singleton squoteChar

/-- One-character string holding a double quote. -/
def dquote : String := String.singleton dquoteChar

/-- Whitespace characters removed by Python `str.strip()` (space, tab,
newline, carriage return, vertical tab, form feed). -/
def isPySpace (c : Char) : Bool :=
  c = ' ' || c.toNat = 9 || c.toNat = 10 || c.toNat = 13 || c.toNat = 11 ||
    c.toNat = 12

/-- Model of Python `str.strip()` with no arguments: remove leading and
trailing whitespace. -/
def strip (s : String) : String :=
  (((s.data.dropWhile isPySpace).reverse.dropWhile isPySpace).reverse).asString

/-- Model of Python `str.replace(a, b)` for one-character arguments, the
shape `book_appointment` uses: replace every occurrence. -/
def replaceChar (a b : Char) (s : String) : String :=
  (s.data.map (fun c => if c = a then b else c)).asString

/-- A timezone-aware or naive Python `datetime` value as produced by
`datetime.fromisoformat`: calendar fields plus an optional UTC offset in
minutes (`None` for naive values). -/
structure DateTime where
  year : Nat
  month : Nat
  day : Nat
  hour : Nat
  minute : Nat
  second : Nat
  offset : Option Int
  deriving DecidableEq, Repr

/-- Gregorian leap-year rule, as used by Python `datetime`. -/
def isLeap (y : Nat) : Bool := (y % 4 == 0 && y % 100 != 0) || y % 400 == 0

/-- Length of month `m` of year `y` (0 for an out-of-range month number). -/
def daysInMonth (y m : Nat) : Nat :=
  match m with
  | 1 => 31
  | 2 => if isLeap y then 29 else 28
  | 3 => 31
  | 4 => 30
  | 5 => 31
  | 6 => 30
  | 7 => 31
  | 8 => 31
  | 9 => 30
  | 10 => 31
  | 11 => 30
  | 12 => 31
  | _ => 0

/-- Days of year `y` that precede the first day of month `m`. -/
def daysBeforeMonth (y m : Nat) : Nat :=
  let f := if isLeap y then 1 else 0
  match m with
  | 1 => 0
  | 2 => 31
  | 3 => 59 + f
  | 4 => 90 + f
  | 5 => 120 + f
  | 6 => 151 + f
  | 7 => 181 + f
  | 8 => 212 + f
  | 9 => 243 + f
  | 10 => 273 + f
  | 11 => 304 + f
  | 12 => 334 + f
  | _ => 0

/-- Length of year `y` in days. -/
def daysInYear (y : Nat) : Nat := if isLeap y then 366 else 365

/-- Days that precede January 1 of year `y`, counting from year 1
(the proleptic Gregorian calendar used by Python `datetime`). -/
def daysBeforeYear : Nat → Nat
  | 0 => 0
  | y + 1 => if y = 0 then 0 else daysBeforeYear y + daysInYear y

/-- Day index of a calendar date: day 0 is 0001-01-01 (a Monday). -/
def dayNumber (y m d : Nat) : Nat :=
  daysBeforeYear y + daysBeforeMonth y m + (d - 1)

/-- UTC offset of a datetime in minutes, 0 for naive values (used only to
place instants on a common timeline). -/
def tzMin (t : DateTime) : Int := t.offset.getD 0

/-- Position of an instant on the absolute timeline, in seconds. -/
def toSec (t : DateTime) : Int :=
  (dayNumber t.year t.month t.day : Int) * 86400 + (t.hour : Int) * 3600 +
    (t.minute : Int) * 60 + (t.second : Int) - tzMin t * 60

/-- Offsets accepted by `datetime.fromisoformat` are strictly smaller than
one day in magnitude. -/
def validOffset : Option Int → Bool
  | none => true
  | some o => decide (-1439 ≤ o) && decide (o ≤ 1439)

/-- Range checks enforced by the `datetime` constructor (`MINYEAR = 1`,
`MAXYEAR = 9999`, valid month/day/time fields). -/
def validDateTime (t : DateTime) : Bool :=
  decide (1 ≤ t.year) && decide (t.year ≤ 9999) &&
  decide (1 ≤ t.month) && decide (t.month ≤ 12) &&
  decide (1 ≤ t.day) && decide (t.day ≤ daysInMonth t.year t.month) &&
  decide (t.hour ≤ 23) && decide (t.minute ≤ 59) && decide (t.second ≤ 59) &&
  validOffset t.offset

/-- Calendar successor of a date, with month and year rollover. -/
def nextDay (y m d : Nat) : Nat × Nat × Nat :=
  if d + 1 ≤ daysInMonth y m then (y, m, d + 1)
  else if m + 1 ≤ 12 then (y, m + 1, 1)
  else (y + 1, 1, 1)

/-- Model of `start_dt + timedelta(hours=1)`: add one hour, rolling the date
forward when the hour wraps.  Returns `none` exactly when Python raises
`OverflowError` (result year past `MAXYEAR = 9999`); that exception is caught
by the tools and turned into an error string. -/
def addHour (t : DateTime) : Option DateTime :=
  if t.hour + 1 ≤ 23 then some { t with hour := t.hour + 1 }
  else
    match nextDay t.year t.month t.day with
    | (y, m, d) =>
      if 9999 < y then none
      else some { t with year := y, month := m, day := d, hour := 0 }

/-- Numeric value of a decimal digit character, `none` for non-digits. -/
def digitVal (c : Char) : Option Nat :=
  if c.isDigit then some (c.toNat - 48) else none

/-- Parse exactly two decimal digits. -/
def parse2 : List Char → Option (Nat × List Char)
  | a :: b :: rest =>
    match digitVal a, digitVal b with
    | some x, some y => some (x * 10 + y, rest)
    | _, _ => none
  | _ => none

/-- Parse exactly four decimal digits. -/
def parse4 : List Char → Option (Nat × List Char)
  | a :: b :: c :: d :: rest =>
    match digitVal a, digitVal b, digitVal c, digitVal d with
    | some x, some y, some z, some w => some (((x * 10 + y) * 10 + z) * 10 + w, rest)
    | _, _, _, _ => none
  | _ => none

/-- Consume one expected character. -/
def expectChar (c : Char) : List Char → Option (List Char)
  | x :: xs => if x = c then some xs else none
  | [] => none

/-- Parse the optional trailing UTC-offset part of an ISO-8601 time
(`+HH:MM` or `-HH:MM`, result in minutes); the remainder must be empty. -/
def parseTz : List Char → Option (Option Int)
  | [] => some none
  | c :: cs =>
    if c = '+' ∨ c = '-' then
      match parse2 cs with
      | none => none
      | some (oh, r1) =>
        match expectChar ':' r1 with
        | none => none
        | some r2 =>
          match parse2 r2 with
          | none => none
          | some (om, r3) =>
            if r3 = [] ∧ oh ≤ 23 ∧ om ≤ 59 then
              let mag : Int := (oh : Int) * 60 + (om : Int)
              some (some (if c = '+' then mag else -mag))
            else none
    else none

/-- Parse the time-of-day part `HH[:MM[:SS]]` followed by an optional UTC
offset, consuming the whole input. -/
def parseTime (cs : List Char) : Option (Nat × Nat × Nat × Option Int) :=
  match parse2 cs with
  | none => none
  | some (h, r1) =>
    match r1 with
    | [] => some (h, 0, 0, none)
    | c :: r2 =>
      if c = ':' then
        match parse2 r2 with
        | none => none
        | some (mi, r3) =>
          match r3 with
          | [] => some (h, mi, 0, none)
          | c2 :: r4 =>
            if c2 = ':' then
              match parse2 r4 with
              | none => none
              | some (s, r5) =>
                match parseTz r5 with
                | none => none
                | some tz => some (h, mi, s, tz)
            else
              match parseTz r3 with
              | none => none
              | some tz => some (h, mi, 0, tz)
      else
        match parseTz r1 with
        | none => none
        | some tz => some (h, 0, 0, tz)

/-- Syntactic layer of `datetime.fromisoformat`:
`YYYY-MM-DD[(T or space)HH[:MM[:SS]][(+ or -)HH:MM]]`.  A bare date parses to
midnight, exactly as in Python.  (Fractional seconds and the basic,
separator-free format are outside this model; no input exercised by the
system uses them.) -/
def parseIsoSyntax (cs : List Char) : Option DateTime :=
  match parse4 cs with
  | none => none
  | some (y, r1) =>
    match expectChar '-' r1 with
    | none => none
    | some r2 =>
      match parse2 r2 with
      | none => none
      | some (mo, r3) =>
        match expectChar '-' r3 with
        | none => none
        | some r4 =>
          match parse2 r4 with
          | none => none
          | some (d, r5) =>
            match r5 with
            | [] => some (DateTime.mk y mo d 0 0 0 none)
            | sep :: r6 =>
              if sep = 'T' ∨ sep = ' ' then
                match parseTime r6 with
                | none => none
                | some (h, mi, s, tz) => some (DateTime.mk y mo d h mi s tz)
              else none

/-- Model of Python `datetime.fromisoformat`: syntactic parse followed by the
`datetime` constructor range checks.  `none` models the `ValueError` raised
on malformed input, which the tools catch. -/
def fromisoformat (s : String) : Option DateTime :=
  match parseIsoSyntax s.data with
  | none => none
  | some t => if validDateTime t then some t else none

/-- Zero-padded two-digit decimal rendering (strftime field style). -/
def pad2 (n : Nat) : String :=
  if n < 10 then "0" ++ toString n else toString n

/-- Hour on the 12-hour clock (strftime `%I`). -/
def hour12 (h : Nat) : Nat := if h % 12 = 0 then 12 else h % 12

/-- strftime `%p` in the C locale. -/
def meridiem (h : Nat) : String := if h < 12 then "AM" else "PM"

/-- Model of `start_dt.strftime(...)` for the pattern used by the
availability tool: 12-hour clock time with AM/PM. -/
def strftimeClock (t : DateTime) : String :=
  pad2 (hour12 t.hour) ++ ":" ++ pad2 t.minute ++ " " ++ meridiem t.hour

/-- strftime `%A`: full weekday name; day 0 of `dayNumber` (0001-01-01) is a
Monday in the proleptic Gregorian calendar. -/
def weekdayName (t : DateTime) : String :=
  match dayNumber t.year t.month t.day % 7 with
  | 0 => "Monday"
  | 1 => "Tuesday"
  | 2 => "Wednesday"
  | 3 => "Thursday"
  | 4 => "Friday"
  | 5 => "Saturday"
  | _ => "Sunday"

/-- strftime `%B`: full month name. -/
def monthName (m : Nat) : String :=
  match m with
  | 1 => "January"
  | 2 => "February"
  | 3 => "March"
  | 4 => "April"
  | 5 => "May"
  | 6 => "June"
  | 7 => "July"
  | 8 => "August"
  | 9 => "September"
  | 10 => "October"
  | 11 => "November"
  | 12 => "December"
  | _ => ""

/-- Model of the booking confirmation date format
(`%A, %B %d at %I:%M %p`). -/
def strftimeLong (t : DateTime) : String :=
  weekdayName t ++ ", " ++ monthName t.month ++ " " ++ pad2 t.day ++ " at " ++
    strftimeClock t

/-- Whitespace characters the JSON grammar allows between tokens. -/
def isJsonWs (c : Char) : Bool :=
  c = ' ' || c.toNat = 9 || c.toNat = 10 || c.toNat = 13

/-- Skip JSON inter-token whitespace. -/
def skipWs : List Char → List Char
  | [] => []
  | c :: cs => if isJsonWs c then skipWs cs else c :: cs

/-- Single-character JSON string escapes (`\uXXXX` is outside the model; no
input exercised by the system uses it). -/
def unescape (c : Char) : Option Char :=
  if c = dquoteChar then some dquoteChar
  else if c = backslashChar then some backslashChar
  else if c = '/' then some '/'
  else if c = 'n' then some (Char.ofNat 10)
  else if c = 't' then some (Char.ofNat 9)
  else if c = 'r' then some (Char.ofNat 13)
  else if c = 'b' then some (Char.ofNat 8)
  else if c = 'f' then some (Char.ofNat 12)
  else none

/-- Body of a JSON string after its opening double quote: content up to the
closing quote, plus the remainder.  Control characters are rejected, as in
`json.loads`. -/
def parseJStrAux : Nat → List Char → Option (List Char × List Char)
  | 0, _ => none
  | _, [] => none
  | fuel + 1, c :: rest =>
    if c = dquoteChar then some ([], rest)
    else if c = backslashChar then
      match rest with
      | [] => none
      | e :: rest2 =>
        match unescape e with
        | none => none
        | some u =>
          match parseJStrAux fuel rest2 with
          | none => none
          | some (acc, r) => some (u :: acc, r)
    else if c.toNat < 32 then none
    else
      match parseJStrAux fuel rest with
      | none => none
      | some (acc, r) => some (c :: acc, r)

/-- Members of a JSON object whose values are strings: `"k" : "v"` pairs
separated by commas, up to and including the closing brace. -/
def parseMembers : Nat → List Char → Option (List (String × String) × List Char)
  | 0, _ => none
  | fuel + 1, cs =>
    match expectChar dquoteChar (skipWs cs) with
    | none => none
    | some cs2 =>
      match parseJStrAux (cs2.length + 1) cs2 with
      | none => none
      | some (k, cs3) =>
        match expectChar ':' (skipWs cs3) with
        | none => none
        | some cs5 =>
          match expectChar dquoteChar (skipWs cs5) with
          | none => none
          | some cs7 =>
            match parseJStrAux (cs7.length + 1) cs7 with
            | none => none
            | some (v, cs8) =>
              match skipWs cs8 with
              | [] => none
              | c :: cs10 =>
                if c = ',' then
                  match parseMembers fuel cs10 with
                  | none => none
                  | some (ms, r) => some ((k.asString, v.asString) :: ms, r)
                else if c = rbraceChar then some ([(k.asString, v.asString)], cs10)
                else none

/-- Model of Python `json.loads` restricted to objects whose values are
strings, which is the shape `book_appointment` requires.  Payloads outside
this shape (non-string values, arrays, scalars) make the source fail in the
same `try` block a parse error does — `args['time']`/`.strip()` raise
`TypeError`/`AttributeError` — so collapsing them into the parse failure
branch preserves the observable behaviour of the tool. -/
def json_loads (s : String) : Option (List (String × String)) :=
  match skipWs s.data with
  | [] => none
  | c :: r =>
    if c = lbraceChar then
      match skipWs r with
      | [] => none
      | c2 :: r2 =>
        if c2 = rbraceChar then
          if skipWs r2 = [] then some [] else none
        else
          match parseMembers (s.data.length + 1) (c2 :: r2) with
          | none => none
          | some (ms, rest) => if skipWs rest = [] then some ms else none
    else none

/-- Python `dict` lookup for an object built by `json.loads`: with duplicate
keys the last occurrence wins. -/
def dictGet (ms : List (String × String)) (k : String) : Option String :=
  match ms.reverse.find? (fun p => p.1 == k) with
  | some p => some p.2
  | none => none

/-- A calendar event as the availability tool consumes it
(`event['summary']`). -/
structure Event where
  summary : String
  deriving DecidableEq, Repr

/-- One call the tools issue against the Calendar Gateway, with the argument
instants the source passes (`timeMin`/`timeMax`, or summary with start and
finish). -/
inductive GatewayCall where
  | list (timeMin timeMax : DateTime)
  | insert (summary : String) (start finish : DateTime)
  deriving DecidableEq, Repr

/-- The Calendar Gateway boundary (`service.events().list/insert`): a backend
with abstract state `σ`; either operation may fail, modelling `HttpError`
and friends, which the tools catch. -/
structure Gateway (σ : Type) where
  listEvents : σ → DateTime → DateTime → Except String (List Event)
  insertEvent : σ → String → DateTime → DateTime → Except String (String × σ)

deriving instance DecidableEq for Except

/-- The error prefix of `check_calendar_availability`. -/
def errPrefix : String := "An error occurred: "

/-- The error prefix of `book_appointment`. -/
def bookErrPrefix : String := "An error occurred while booking: "

/-- Text of the `ValueError` raised by `datetime.fromisoformat`. -/
def invalidIsoMsg (s : String) : String :=
  "Invalid isoformat string: " ++ squote ++ s ++ squote

/-- Text of the `OverflowError` raised by datetime addition past `MAXYEAR`. -/
def overflowMsg : String := "date value out of range"

/-- Model of `", ".join(...)`. -/
def joinComma : List String → String
  | [] => ""
  | [a] => a
  | a :: b :: rest => a ++ ", " ++ joinComma (b :: rest)

/-- The quoted summary item built for each conflicting event. -/
def quoteSummary (ev : Event) : String := squote ++ ev.summary ++ squote

/-- The free-slot message of the availability tool. -/
def freeMsg (t : DateTime) : String :=
  "The 1-hour slot starting at " ++ strftimeClock t ++ " is free."

/-- The busy-slot message of the availability tool. -/
def busyMsg (events : List Event) : String :=
  "The requested time slot is busy. It conflicts with: " ++
    joinComma (events.map quoteSummary) ++ "."

/-- Shallow embedding of `check_calendar_availability` from
`backend/main.py`: strip and parse the input, add one hour, query the
gateway, and render the free/busy/error string.  The second component
records the gateway calls issued; every `except`-handler path of the source
is a branch producing the corresponding error string. -/
def check_calendar_availability (gw : Gateway σ) (st : σ) (time_str : String) :
    String × List GatewayCall :=
  match fromisoformat (strip time_str) with
  | none => (errPrefix ++ invalidIsoMsg (strip time_str), [])
  | some start_dt =>
    match addHour start_dt with
    | none => (errPrefix ++ overflowMsg, [])
    | some end_dt =>
      match gw.listEvents st start_dt end_dt with
      | Except.error e => (errPrefix ++ e, [GatewayCall.list start_dt end_dt])
      | Except.ok events =>
        if events = [] then (freeMsg start_dt, [GatewayCall.list start_dt end_dt])
        else (busyMsg events, [GatewayCall.list start_dt end_dt])

/-- The quote-normalisation and field-extraction stage of `book_appointment`:
`json.loads(input_str.replace("'", '"'))` followed by
`args['time'].strip()` and `args['summary'].strip()`.  The error branch
carries the text of the exception (`json` parse error or `KeyError`). -/
def parseBookingInput (input_str : String) : Except String (String × String) :=
  match json_loads (replaceChar squoteChar dquoteChar input_str) with
  | none => Except.error "Expecting value: line 1 column 1 (char 0)"
  | some args =>
    match dictGet args "time" with
    | none => Except.error (squote ++ "time" ++ squote)
    | some tv =>
      match dictGet args "summary" with
      | none => Except.error (squote ++ "summary" ++ squote)
      | some sv => Except.ok (strip tv, strip sv)

/-- The booking confirmation string of `book_appointment`. -/
def successMsg (summary : String) (t : DateTime) (link : String) : String :=
  "Success! The appointment " ++ squote ++ summary ++ squote ++
    " has been booked for " ++ strftimeLong t ++ ". Event link: " ++ link

/-- Shallow embedding of `book_appointment` from `backend/main.py`: normalise
quotes, parse the JSON-like payload, extract and strip `time` and `summary`,
parse the time, add one hour, and issue one `insert` against the gateway.
Returns the result string, the gateway state after the call, and the log of
gateway calls issued. -/
def book_appointment (gw : Gateway σ) (st : σ) (input_str : String) :
    String × σ × List GatewayCall :=
  match parseBookingInput input_str with
  | Except.error e => (bookErrPrefix ++ e, st, [])
  | Except.ok (time_str, summary) =>
    match fromisoformat time_str with
    | none => (bookErrPrefix ++ invalidIsoMsg time_str, st, [])
    | some start_dt =>
      match addHour start_dt with
      | none => (bookErrPrefix ++ overflowMsg, st, [])
      | some end_dt =>
        match gw.insertEvent st summary start_dt end_dt with
        | Except.error e =>
          (bookErrPrefix ++ e, st, [GatewayCall.insert summary start_dt end_dt])
        | Except.ok (link, st2) =>
          (successMsg summary start_dt link, st2,
            [GatewayCall.insert summary start_dt end_dt])

/-- Does `needle` occur at the start of `hay`? -/
def hasPre : List Char → List Char → Bool
  | [], _ => true
  | _ :: _, [] => false
  | a :: as, b :: bs => a == b && hasPre as bs

/-- Does `needle` occur anywhere in `hay`? -/
def hasSub (needle : List Char) : List Char → Bool
  | [] => hasPre needle []
  | b :: bs => hasPre needle (b :: bs) || hasSub needle bs

/-- Substring test on strings, used to state the message contracts. -/
def containsSubstr (hay needle : String) : Bool := hasSub needle.data hay.data

/-- A message author in a session history. -/
inductive Role where
  | user
  | assistant
  deriving DecidableEq, Repr

/-- One stored message of a session history (a `HumanMessage` or
`AIMessage` in the buffer memory). -/
structure Msg where
  role : Role
  text : String
  deriving DecidableEq, Repr

/-- The process-wide `chat_histories` dict: session id to ordered message
list, modelled as an association list with unique keys. -/
abbrev HistTable := List (String × List Msg)

/-- `session_id in chat_histories`. -/
def hasSession : HistTable → String → Bool
  | [], _ => false
  | p :: rest, sid => p.1 == sid || hasSession rest sid

/-- The stored message list of a session (empty for an unknown id, matching
a freshly created `ConversationBufferMemory`). -/
def getHistory : HistTable → String → List Msg
  | [], _ => []
  | p :: rest, sid => if p.1 == sid then p.2 else getHistory rest sid

/-- Dict assignment `chat_histories[sid] = ms`: overwrite the existing entry
or add a new one. -/
def setHistory : HistTable → String → List Msg → HistTable
  | [], sid, ms => [(sid, ms)]
  | p :: rest, sid, ms =>
    if p.1 == sid then (sid, ms) :: rest else p :: setHistory rest sid ms

/-- The lazy-creation step of the chat endpoint:
`if session_id not in chat_histories: chat_histories[session_id] = ...`. -/
def ensureSession (h : HistTable) (sid : String) : HistTable :=
  if hasSession h sid then h else h ++ [(sid, [])]

/-- The conversation context handed to the agent executor for a request:
the session memory in force after lazy creation
(`memory.chat_memory.messages`). -/
def assembledContext (h : HistTable) (sid : String) : List Msg :=
  getHistory (ensureSession h sid) sid

/-- Shallow embedding of the `POST /chat` handler `chat_with_agent`: look up
or create the session, invoke the reasoning engine on the new message plus
the prior history, and on success append the user and assistant turns.  The
engine is an abstract function that may fail (`agent_executor.invoke`
raising); on failure the error propagates, but the table keeps the state the
handler already produced (the lazily created entry). -/
def chat_with_agent (agent : String → List Msg → Except String String)
    (hists : HistTable) (sid msg : String) : Except String String × HistTable :=
  let hists1 := ensureSession hists sid
  let memory := getHistory hists1 sid
  match agent msg memory with
  | Except.error e => (Except.error e, hists1)
  | Except.ok output =>
    (Except.ok output,
      setHistory hists1 sid
        (memory ++ [Msg.mk Role.user msg, Msg.mk Role.assistant output]))

/-- A sequence of chat exchanges on one session: feed each message in turn,
collecting the agent outputs; `none` if the engine fails partway. -/
def runChats (agent : String → List Msg → Except String String) :
    HistTable → String → List String → Option (HistTable × List String)
  | h, _, [] => some (h, [])
  | h, sid, m :: ms =>
    match chat_with_agent agent h sid m with
    | (Except.ok out, h2) =>
      match runChats agent h2 sid ms with
      | some (hf, outs) => some (hf, out :: outs)
      | none => none
    | (Except.error _, _) => none

/-- The message list a sequence of completed exchanges appends: user and
assistant messages interleaved in exchange order. -/
def turnsOf : List String → List String → List Msg
  | m :: ms, o :: os =>
    Msg.mk Role.user m :: Msg.mk Role.assistant o :: turnsOf ms os
  | _, _ => []

/-- A consistent in-memory calendar backend used to witness the gateway-level
hypotheses: `insert` appends the event to the store and returns a link,
`list` reports every stored event in insertion order. -/
def recordGateway : Gateway (List (String × DateTime × DateTime)) where
  listEvents := fun st _ _ => Except.ok (st.map (fun r => Event.mk r.1))
  insertEvent := fun st s a b =>
    Except.ok ("https://www.google.com/calendar/event", st ++ [(s, a, b)])

/-- A stateless backend with no events, for runs where the gateway response
is irrelevant. -/
def emptyGateway : Gateway Unit where
  listEvents := fun _ _ _ => Except.ok []
  insertEvent := fun _ _ _ _ => Except.ok ("https://www.google.com/calendar/event", ())

/-- A backend whose calls always fail, modelling an unreachable calendar
service. -/
def failGateway : Gateway Unit where
  listEvents := fun _ _ _ => Except.error "HttpError 503"
  insertEvent := fun _ _ _ _ => Except.error "HttpError 503"

/-- A reasoning engine that always answers with a fixed final text. -/
def constAgent (r : String) : String → List Msg → Except String String :=
  fun _ _ => Except.ok r

/-- A reasoning engine whose invocation always raises. -/
def failAgent : String → List Msg → Except String String :=
  fun _ _ => Except.error "engine failure"

/-- The Python-dict-literal payload shape the spec describes for the booking
tool, rendered from a time value and a summary value. -/
def renderPayload (tv sv : String) : String :=
  String.singleton lbraceChar ++ squote ++ "time" ++ squote ++ ": " ++
    squote ++ tv ++ squote ++ ", " ++ squote ++ "summary" ++ squote ++ ": " ++
    squote ++ sv ++ squote ++ String.singleton rbraceChar

/-- Sample instant 2025-01-01 10:00 at UTC+05:30, for concrete runs. -/
def sampleStart : DateTime := DateTime.mk 2025 1 1 10 0 0 (some 330)

/-- One hour after `sampleStart`. -/
def sampleEnd : DateTime := DateTime.mk 2025 1 1 11 0 0 (some 330)

/-- ISO-8601 rendering of `sampleStart`, the example time value of the
specification. -/
def sampleIso : String := "2025-01-01T10:00:00+05:30"

theorem hasPre_append_self (n t : List Char) : hasPre n (n ++ t) = true := by
  induction n with
  | nil => rfl
  | cons a as ih => simp [hasPre, ih]

theorem hasPre_extend (n : List Char) : ∀ h t : List Char,
    hasPre n h = true → hasPre n (h ++ t) = true := by
  induction n with
  | nil => intro h t _; rfl
  | cons a as ih =>
    intro h t hp
    cases h with
    | nil => simp [hasPre] at hp
    | cons b bs =>
      simp only [hasPre, Bool.and_eq_true] at hp
      simp only [List.cons_append, hasPre, Bool.and_eq_true]
      exact ⟨hp.1, ih bs t hp.2⟩

theorem hasSub_of_hasPre (n h : List Char) (hp : hasPre n h = true) :
    hasSub n h = true := by
  cases h with
  | nil => simpa [hasSub] using hp
  | cons b bs => simp [hasSub, hp]

theorem hasSub_append_left (n : List Char) : ∀ h t : List Char,
    hasSub n h = true → hasSub n (h ++ t) = true := by
  intro h
  induction h with
  | nil =>
    intro t hs
    cases n with
    | nil => exact hasSub_of_hasPre _ _ rfl
    | cons a as => simp [hasSub, hasPre] at hs
  | cons b bs ih =>
    intro t hs
    simp only [hasSub, Bool.or_eq_true] at hs
    rcases hs with hp | hss
    · exact hasSub_of_hasPre _ _ (hasPre_extend n (b :: bs) t hp)
    · simp only [List.cons_append, hasSub, Bool.or_eq_true]
      exact Or.inr (ih t hss)

theorem hasSub_append_right (n : List Char) : ∀ h t : List Char,
    hasSub n t = true → hasSub n (h ++ t) = true := by
  intro h
  induction h with
  | nil => intro t hs; exact hs
  | cons b bs ih =>
    intro t hs
    simp only [List.cons_append, hasSub, Bool.or_eq_true]
    exact Or.inr (ih t hs)

theorem String.data_append_eq (a b : String) : (a ++ b).data = a.data ++ b.data := by
  cases a; cases b; rfl

theorem containsSubstr_append_left (a b x : String)
    (h : containsSubstr a x = true) : containsSubstr (a ++ b) x = true := by
  unfold containsSubstr at h ⊢
  rw [String.data_append_eq]
  exact hasSub_append_left _ _ _ h

theorem containsSubstr_append_right (a b x : String)
    (h : containsSubstr b x = true) : containsSubstr (a ++ b) x = true := by
  unfold containsSubstr at h ⊢
  rw [String.data_append_eq]
  exact hasSub_append_right _ _ _ h

theorem containsSubstr_self (x : String) : containsSubstr x x = true := by
  apply hasSub_of_hasPre
  have h := hasPre_append_self x.data []
  rwa [List.append_nil] at h

theorem joinComma_contains (l : List String) (x : String) (hx : x ∈ l) :
    containsSubstr (joinComma l) x = true := by
  induction l with
  | nil => cases hx
  | cons a rest ih =>
    cases rest with
    | nil =>
      have hxa : x = a := by simpa using hx
      subst hxa
      simpa [joinComma] using containsSubstr_self x
    | cons b rest2 =>
      rcases List.mem_cons.mp hx with hxa | hx'
      · subst hxa
        exact containsSubstr_append_left _ _ _
          (containsSubstr_append_left _ _ _ (containsSubstr_self x))
      · exact containsSubstr_append_right _ _ _ (ih hx')

theorem validDateTime_of_fromisoformat (s : String) (t : DateTime)
    (h : fromisoformat s = some t) : validDateTime t = true := by
  cases hp : parseIsoSyntax s.data with
  | none =>
    simp only [fromisoformat, hp] at h
    cases h
  | some t2 =>
    simp only [fromisoformat, hp] at h
    by_cases hv : validDateTime t2 = true
    · rw [if_pos hv] at h
      cases h
      exact hv
    · rw [if_neg hv] at h
      cases h

theorem daysBeforeMonth_succ (y m : Nat) (h1 : 1 ≤ m) (h2 : m ≤ 11) :
    daysBeforeMonth y (m + 1) = daysBeforeMonth y m + daysInMonth y m := by
  interval_cases m <;> cases hL : isLeap y <;> simp [daysBeforeMonth, daysInMonth, hL]

theorem daysBeforeYear_succ (y : Nat) (h : 1 ≤ y) :
    daysBeforeYear (y + 1) = daysBeforeYear y + daysInYear y := by
  have hy : y ≠ 0 := by omega
  simp [daysBeforeYear, hy]

theorem daysBeforeMonth_thirteen (y : Nat) :
    daysBeforeMonth y 12 + daysInMonth y 12 + 1 = daysInYear y + 1 := by
  cases hL : isLeap y <;> simp [daysBeforeMonth, daysInMonth, daysInYear, hL]

/-- Adding one hour moves the instant forward by exactly 3600 seconds on the
absolute timeline, for any field-valid datetime. -/
theorem toSec_addHour (t e : DateTime) (hv : validDateTime t = true)
    (h : addHour t = some e) : toSec e = toSec t + 3600 := by
  obtain ⟨Y, M, D, H, Mi, S, O⟩ := t
  unfold validDateTime at hv
  simp only [Bool.and_eq_true, decide_eq_true_eq] at hv
  obtain ⟨⟨⟨⟨⟨⟨⟨⟨⟨hy1, hy2⟩, hm1⟩, hm2⟩, hd1⟩, hd2⟩, hh⟩, hmi⟩, hs⟩, ho⟩ := hv
  unfold addHour at h
  by_cases hlt : H + 1 ≤ 23
  · rw [if_pos hlt] at h
    cases h
    simp only [toSec, tzMin]
    push_cast
    omega
  · rw [if_neg hlt] at h
    have hH : H = 23 := by omega
    subst hH
    simp only [nextDay] at h
    by_cases hd : D + 1 ≤ daysInMonth Y M
    · rw [if_pos hd] at h
      simp only at h
      by_cases hy9 : 9999 < Y
      · rw [if_pos hy9] at h; cases h
      · rw [if_neg hy9] at h
        cases h
        have hdn : dayNumber Y M (D + 1) = dayNumber Y M D + 1 := by
          unfold dayNumber; omega
        simp only [toSec, tzMin, hdn]
        push_cast
        omega
    · rw [if_neg hd] at h
      by_cases hm12 : M + 1 ≤ 12
      · rw [if_pos hm12] at h
        simp only at h
        by_cases hy9 : 9999 < Y
        · rw [if_pos hy9] at h; cases h
        · rw [if_neg hy9] at h
          cases h
          have hdm : D = daysInMonth Y M := by omega
          have hmle : M ≤ 11 := by omega
          have hdn : dayNumber Y (M + 1) 1 = dayNumber Y M D + 1 := by
            unfold dayNumber
            rw [daysBeforeMonth_succ Y M hm1 hmle]
            omega
          simp only [toSec, tzMin, hdn]
          push_cast
          omega
      · have hM : M = 12 := by omega
        subst hM
        have hdim : daysInMonth Y 12 = 31 := rfl
        have hdm : D = 31 := by omega
        subst hdm
        rw [if_neg hm12] at h
        simp only at h
        by_cases hy9 : 9999 < Y + 1
        · rw [if_pos hy9] at h; cases h
        · rw [if_neg hy9] at h
          cases h
          have h13 := daysBeforeMonth_thirteen Y
          have hb1 : daysBeforeMonth (Y + 1) 1 = 0 := rfl
          have hdn : dayNumber (Y + 1) 1 1 = dayNumber Y 12 31 + 1 := by
            unfold dayNumber
            rw [daysBeforeYear_succ Y hy1]
            omega
          simp only [toSec, tzMin, hdn]
          push_cast
          omega

theorem check_log (σ : Type) (gw : Gateway σ) (st : σ) (s : String)
    (t e : DateTime) (h1 : fromisoformat (strip s) = some t)
    (h2 : addHour t = some e) :
    (check_calendar_availability gw st s).2 = [GatewayCall.list t e] := by
  simp only [check_calendar_availability, h1, h2]
  cases hls : gw.listEvents st t e with
  | error m => rfl
  | ok evs =>
    by_cases hevs : evs = [] <;> simp [hevs]

theorem check_fst_ok (σ : Type) (gw : Gateway σ) (st : σ) (s : String)
    (t e : DateTime) (evs : List Event) (h1 : fromisoformat (strip s) = some t)
    (h2 : addHour t = some e) (h3 : gw.listEvents st t e = Except.ok evs) :
    (check_calendar_availability gw st s).1 =
      if evs = [] then freeMsg t else busyMsg evs := by
  simp only [check_calendar_availability, h1, h2, h3]
  by_cases hevs : evs = [] <;> simp [hevs]

theorem check_fst_gwerr (σ : Type) (gw : Gateway σ) (st : σ) (s m : String)
    (t e : DateTime) (h1 : fromisoformat (strip s) = some t)
    (h2 : addHour t = some e) (h3 : gw.listEvents st t e = Except.error m) :
    (check_calendar_availability gw st s).1 = errPrefix ++ m := by
  simp only [check_calendar_availability, h1, h2, h3]

theorem check_parse_err (σ : Type) (gw : Gateway σ) (st : σ) (s : String)
    (h1 : fromisoformat (strip s) = none) :
    check_calendar_availability gw st s =
      (errPrefix ++ invalidIsoMsg (strip s), []) := by
  simp only [check_calendar_availability, h1]

theorem book_run (σ : Type) (gw : Gateway σ) (st : σ) (i tv sv : String)
    (t e : DateTime) (h0 : parseBookingInput i = Except.ok (tv, sv))
    (h1 : fromisoformat tv = some t) (h2 : addHour t = some e) :
    book_appointment gw st i =
      match gw.insertEvent st sv t e with
      | Except.error m => (bookErrPrefix ++ m, st, [GatewayCall.insert sv t e])
      | Except.ok (link, st2) =>
        (successMsg sv t link, st2, [GatewayCall.insert sv t e]) := by
  simp only [book_appointment, h0, h1, h2]

theorem book_log (σ : Type) (gw : Gateway σ) (st : σ) (i tv sv : String)
    (t e : DateTime) (h0 : parseBookingInput i = Except.ok (tv, sv))
    (h1 : fromisoformat tv = some t) (h2 : addHour t = some e) :
    (book_appointment gw st i).2.2 = [GatewayCall.insert sv t e] := by
  rw [book_run σ gw st i tv sv t e h0 h1 h2]
  cases hins : gw.insertEvent st sv t e with
  | error m => rfl
  | ok p => cases p; rfl

theorem book_parse_err (σ : Type) (gw : Gateway σ) (st : σ) (i e : String)
    (h0 : parseBookingInput i = Except.error e) :
    book_appointment gw st i = (bookErrPrefix ++ e, st, []) := by
  simp only [book_appointment, h0]

theorem book_iso_err (σ : Type) (gw : Gateway σ) (st : σ) (i tv sv : String)
    (h0 : parseBookingInput i = Except.ok (tv, sv))
    (h1 : fromisoformat tv = none) :
    book_appointment gw st i = (bookErrPrefix ++ invalidIsoMsg tv, st, []) := by
  simp only [book_appointment, h0, h1]

theorem errPrefix_contains : containsSubstr errPrefix "error" = true := by decide

theorem bookErrPrefix_contains : containsSubstr bookErrPrefix "error" = true := by
  decide

theorem hasSession_append (h h2 : HistTable) (x : String) :
    hasSession (h ++ h2) x = (hasSession h x || hasSession h2 x) := by
  induction h with
  | nil => rfl
  | cons p rest ih => simp [hasSession, ih, Bool.or_assoc]

theorem getHistory_append (h h2 : HistTable) (x : String) :
    getHistory (h ++ h2) x =
      if hasSession h x then getHistory h x else getHistory h2 x := by
  induction h with
  | nil => rfl
  | cons p rest ih =>
    by_cases hc : p.1 == x
    · simp [getHistory, hasSession, hc]
    · simp [getHistory, hasSession, hc, ih]

theorem getHistory_nil_of_no_session (h : HistTable) (x : String)
    (hs : hasSession h x = false) : getHistory h x = [] := by
  induction h with
  | nil => rfl
  | cons p rest ih =>
    cases hc : (p.1 == x) with
    | true => simp [hasSession, hc] at hs
    | false =>
      simp only [hasSession, hc, Bool.false_or] at hs
      simp [getHistory, hc, ih hs]

theorem getHistory_ensure_self (h : HistTable) (sid : String) :
    getHistory (ensureSession h sid) sid = getHistory h sid := by
  unfold ensureSession
  by_cases hs : hasSession h sid
  · rw [if_pos hs]
  · rw [if_neg hs, getHistory_append, if_neg hs]
    have hnil := getHistory_nil_of_no_session h sid (by simpa using hs)
    simp [getHistory, hnil]

theorem hasSession_ensure_self (h : HistTable) (sid : String) :
    hasSession (ensureSession h sid) sid = true := by
  unfold ensureSession
  by_cases hs : hasSession h sid
  · rw [if_pos hs]; exact hs
  · rw [if_neg hs, hasSession_append]
    simp [hasSession]

theorem getHistory_ensure_other (h : HistTable) (sid x : String) :
    getHistory (ensureSession h sid) x = getHistory h x := by
  unfold ensureSession
  by_cases hs : hasSession h sid
  · rw [if_pos hs]
  · rw [if_neg hs, getHistory_append]
    by_cases hx2 : hasSession h x
    · rw [if_pos hx2]
    · rw [if_neg hx2]
      have hnil := getHistory_nil_of_no_session h x (by simpa using hx2)
      simp [getHistory, hnil]

theorem hasSession_ensure_mono (h : HistTable) (sid x : String)
    (hx : hasSession h x = true) : hasSession (ensureSession h sid) x = true := by
  unfold ensureSession
  by_cases hs : hasSession h sid
  · rw [if_pos hs]; exact hx
  · rw [if_neg hs, hasSession_append, hx]
    rfl

theorem getHistory_set_self (h : HistTable) (sid : String) (ms : List Msg) :
    getHistory (setHistory h sid ms) sid = ms := by
  induction h with
  | nil => simp [setHistory, getHistory]
  | cons p rest ih =>
    by_cases hc : p.1 == sid
    · simp [setHistory, hc, getHistory]
    · simp [setHistory, hc, getHistory, ih]

theorem getHistory_set_other (h : HistTable) (sid x : String) (hx : x ≠ sid)
    (ms : List Msg) : getHistory (setHistory h sid ms) x = getHistory h x := by
  have hsx : (sid == x) = false := by
    simp [Ne.symm hx]
  induction h with
  | nil => simp [setHistory, getHistory, hsx]
  | cons p rest ih =>
    by_cases hc : p.1 == sid
    · have hpeq : p.1 = sid := eq_of_beq hc
      have hpx : (p.1 == x) = false := by rw [hpeq]; exact hsx
      simp [setHistory, hc, getHistory, hsx, hpx]
    · by_cases hpx : p.1 == x
      · simp [setHistory, hc, getHistory, hpx]
      · simp [setHistory, hc, getHistory, hpx, ih]

theorem hasSession_set_mono (h : HistTable) (sid x : String) (ms : List Msg)
    (hx : hasSession h x = true) : hasSession (setHistory h sid ms) x = true := by
  induction h with
  | nil => simp [hasSession] at hx
  | cons p rest ih =>
    by_cases hc : p.1 == sid
    · have hpeq : p.1 = sid := eq_of_beq hc
      simp only [hasSession, Bool.or_eq_true] at hx
      simp only [setHistory, hc, if_pos, hasSession, Bool.or_eq_true]
      rcases hx with h1 | h2
      · exact Or.inl (by rw [← hpeq]; exact h1)
      · exact Or.inr h2
    · simp only [hasSession, Bool.or_eq_true] at hx
      simp only [setHistory, hc, if_neg, hasSession, Bool.or_eq_true]
      rcases hx with h1 | h2
      · exact Or.inl h1
      · exact Or.inr (ih h2)

theorem chat_fst (agent : String → List Msg → Except String String)
    (h : HistTable) (sid msg : String) :
    (chat_with_agent agent h sid msg).1 = agent msg (getHistory h sid) := by
  simp only [chat_with_agent, getHistory_ensure_self]
  cases hag : agent msg (getHistory h sid) <;> rfl

theorem chat_ok (agent : String → List Msg → Except String String)
    (h : HistTable) (sid msg out : String) (h2 : HistTable)
    (hc : chat_with_agent agent h sid msg = (Except.ok out, h2)) :
    h2 = setHistory (ensureSession h sid) sid
        (getHistory h sid ++ [Msg.mk Role.user msg, Msg.mk Role.assistant out]) ∧
    agent msg (getHistory h sid) = Except.ok out := by
  simp only [chat_with_agent, getHistory_ensure_self] at hc
  cases hag : agent msg (getHistory h sid) with
  | error e =>
    rw [hag] at hc
    simp at hc
  | ok o =>
    rw [hag] at hc
    simp only [Prod.mk.injEq, Except.ok.injEq] at hc
    obtain ⟨ho, hh⟩ := hc
    subst ho
    exact ⟨hh.symm, rfl⟩

theorem chat_err (agent : String → List Msg → Except String String)
    (h : HistTable) (sid msg e : String) (h2 : HistTable)
    (hc : chat_with_agent agent h sid msg = (Except.error e, h2)) :
    h2 = ensureSession h sid ∧
    agent msg (getHistory h sid) = Except.error e := by
  simp only [chat_with_agent, getHistory_ensure_self] at hc
  cases hag : agent msg (getHistory h sid) with
  | error e2 =>
    rw [hag] at hc
    simp only [Prod.mk.injEq, Except.error.injEq] at hc
    obtain ⟨he, hh⟩ := hc
    subst he
    exact ⟨hh.symm, rfl⟩
  | ok o =>
    rw [hag] at hc
    simp at hc

theorem chat_ok_self (agent : String → List Msg → Except String String)
    (h : HistTable) (sid msg out : String) (h2 : HistTable)
    (hc : chat_with_agent agent h sid msg = (Except.ok out, h2)) :
    getHistory h2 sid =
      getHistory h sid ++ [Msg.mk Role.user msg, Msg.mk Role.assistant out] := by
  obtain ⟨hh, _⟩ := chat_ok agent h sid msg out h2 hc
  rw [hh, getHistory_set_self]

theorem chat_snd_other (agent : String → List Msg → Except String String)
    (h : HistTable) (sid msg x : String) (hx : x ≠ sid) :
    getHistory (chat_with_agent agent h sid msg).2 x = getHistory h x := by
  simp only [chat_with_agent, getHistory_ensure_self]
  cases hag : agent msg (getHistory h sid) with
  | error e => simpa using getHistory_ensure_other h sid x
  | ok o =>
    simp only []
    rw [getHistory_set_other _ _ _ hx, getHistory_ensure_other]

theorem runChats_history (agent : String → List Msg → Except String String)
    (msgs : List String) : ∀ (h : HistTable) (sid : String)
    (hf : HistTable) (outs : List String),
    runChats agent h sid msgs = some (hf, outs) →
    getHistory hf sid = getHistory h sid ++ turnsOf msgs outs := by
  induction msgs with
  | nil =>
    intro h sid hf outs hr
    simp only [runChats, Option.some.injEq, Prod.mk.injEq] at hr
    obtain ⟨h1, h2⟩ := hr
    subst h1
    subst h2
    simp [turnsOf]
  | cons m ms ih =>
    intro h sid hf outs hr
    simp only [runChats] at hr
    cases hcw : chat_with_agent agent h sid m with
    | mk r h2 =>
      rw [hcw] at hr
      cases r with
      | error e => simp at hr
      | ok out =>
        simp only at hr
        cases hrest : runChats agent h2 sid ms with
        | none => rw [hrest] at hr; cases hr
        | some p =>
          cases p with
          | mk hf2 outs2 =>
            rw [hrest] at hr
            simp only [Option.some.injEq, Prod.mk.injEq] at hr
            obtain ⟨h1, h2e⟩ := hr
            rw [← h1, ← h2e]
            have hstep := chat_ok_self agent h sid m out h2 hcw
            have htail := ih h2 sid hf2 outs2 hrest
            rw [turnsOf, htail, hstep]
            simp

/-- C1 (amended): for every input string that parses as a valid ISO-8601
date-time `t` whose one-hour slot end is still representable (every `t`
outside the final hour of year 9999), the availability tool computes the
slot end as exactly `t` plus one hour — an instant 3600 seconds later on the
absolute timeline — and issues exactly one gateway list-events query with
lower bound `t` and upper bound `t` plus one hour. -/
theorem availability_query_range (σ : Type) (gw : Gateway σ) (st : σ)
    (s : String) (t e : DateTime) (h1 : fromisoformat (strip s) = some t)
    (h2 : addHour t = some e) :
    (check_calendar_availability gw st s).2 = [GatewayCall.list t e] ∧
    toSec e = toSec t + 3600 := by
  refine ⟨check_log σ gw st s t e h1 h2, ?_⟩
  exact toSec_addHour t e (validDateTime_of_fromisoformat (strip s) t h1) h2

/-- C1 witness: the concrete sample input produces the query range
10:00 to 11:00 on 2025-01-01 at UTC+05:30. -/
theorem availability_query_range_witness :
    (check_calendar_availability emptyGateway () "2025-01-01T10:00:00+05:30").2 =
      [GatewayCall.list sampleStart sampleEnd] ∧
    toSec sampleEnd = toSec sampleStart + 3600 :=
  availability_query_range Unit emptyGateway () "2025-01-01T10:00:00+05:30"
    sampleStart sampleEnd (by decide) (by decide)

/-- C1 counterexample: the input 9999-12-31T23:30:00 parses as a valid
ISO-8601 date-time, yet the tool issues no gateway query at all: computing
the slot end overflows the supported datetime range, the exception handler
fires, and an error string is returned instead — contradicting the claim
that every parseable input leads to a list-events query over the slot. -/
theorem availability_overflow_cex :
    fromisoformat (strip "9999-12-31T23:30:00") =
      some (DateTime.mk 9999 12 31 23 30 0 none) ∧
    (check_calendar_availability emptyGateway () "9999-12-31T23:30:00").2 = [] ∧
    containsSubstr
      (check_calendar_availability emptyGateway () "9999-12-31T23:30:00").1
      "error" = true :=
  ⟨by decide, by decide, by decide⟩

/-- C2 (confirmed): whenever the gateway answers the slot query, a zero-event
answer yields the free message (containing the substring "free" and the
formatted start time) and a non-empty answer yields the busy message
(containing "busy" and all returned summaries, quoted and comma-separated,
in the order the gateway returned them). -/
theorem availability_messages (σ : Type) (gw : Gateway σ) (st : σ)
    (s : String) (t e : DateTime) (evs : List Event)
    (h1 : fromisoformat (strip s) = some t) (h2 : addHour t = some e)
    (h3 : gw.listEvents st t e = Except.ok evs) :
    (evs = [] →
      (check_calendar_availability gw st s).1 = freeMsg t ∧
      containsSubstr (check_calendar_availability gw st s).1 "free" = true ∧
      containsSubstr (check_calendar_availability gw st s).1
        (strftimeClock t) = true) ∧
    (evs ≠ [] →
      (check_calendar_availability gw st s).1 = busyMsg evs ∧
      containsSubstr (check_calendar_availability gw st s).1 "busy" = true ∧
      containsSubstr (check_calendar_availability gw st s).1
        (joinComma (evs.map quoteSummary)) = true) := by
  have hfst := check_fst_ok σ gw st s t e evs h1 h2 h3
  constructor
  · intro hevs
    rw [hfst, if_pos hevs]
    refine ⟨rfl, ?_, ?_⟩
    · unfold freeMsg
      exact containsSubstr_append_right _ _ _ (by decide)
    · unfold freeMsg
      apply containsSubstr_append_left
      exact containsSubstr_append_right _ _ _ (containsSubstr_self _)
  · intro hevs
    rw [hfst, if_neg hevs]
    refine ⟨rfl, ?_, ?_⟩
    · unfold busyMsg
      apply containsSubstr_append_left
      apply containsSubstr_append_left
      decide
    · unfold busyMsg
      apply containsSubstr_append_left
      exact containsSubstr_append_right _ _ _ (containsSubstr_self _)

/-- C2 witness: on the sample input, an empty backend yields a message
containing "free" and one stored event yields a message containing "busy". -/
theorem availability_messages_witness :
    containsSubstr
      (check_calendar_availability emptyGateway () "2025-01-01T10:00:00+05:30").1
      "free" = true ∧
    containsSubstr
      (check_calendar_availability recordGateway
        [("Standup", sampleStart, sampleEnd)] "2025-01-01T10:00:00+05:30").1
      "busy" = true :=
  ⟨((availability_messages Unit emptyGateway () "2025-01-01T10:00:00+05:30"
      sampleStart sampleEnd [] (by decide) (by decide) rfl).1 rfl).2.1,
   ((availability_messages _ recordGateway [("Standup", sampleStart, sampleEnd)]
      "2025-01-01T10:00:00+05:30" sampleStart sampleEnd [Event.mk "Standup"]
      (by decide) (by decide) rfl).2 (by decide)).2.1⟩

/-- C3 (confirmed): on every failure — malformed time string for the
availability tool; malformed payload or missing field, malformed time, or
gateway failure for either tool — the tool returns a result string
containing the word "error" (here literally in lower case, hence also under
any case-insensitive reading).  Exceptions cannot propagate: both embedded
tools are total functions whose every failure branch returns one of these
strings, mirroring the catch-all handlers of the source. -/
theorem tools_return_error_strings :
    (∀ (σ : Type) (gw : Gateway σ) (st : σ) (s : String),
      fromisoformat (strip s) = none →
      containsSubstr (check_calendar_availability gw st s).1 "error" = true) ∧
    (∀ (σ : Type) (gw : Gateway σ) (st : σ) (i e : String),
      parseBookingInput i = Except.error e →
      containsSubstr (book_appointment gw st i).1 "error" = true) ∧
    (∀ (σ : Type) (gw : Gateway σ) (st : σ) (i tv sv : String),
      parseBookingInput i = Except.ok (tv, sv) → fromisoformat tv = none →
      containsSubstr (book_appointment gw st i).1 "error" = true) ∧
    (∀ (σ : Type) (gw : Gateway σ) (st : σ) (s m : String) (t e : DateTime),
      fromisoformat (strip s) = some t → addHour t = some e →
      gw.listEvents st t e = Except.error m →
      containsSubstr (check_calendar_availability gw st s).1 "error" = true) ∧
    (∀ (σ : Type) (gw : Gateway σ) (st : σ) (i tv sv m : String) (t e : DateTime),
      parseBookingInput i = Except.ok (tv, sv) → fromisoformat tv = some t →
      addHour t = some e → gw.insertEvent st sv t e = Except.error m →
      containsSubstr (book_appointment gw st i).1 "error" = true) := by
  refine ⟨?_, ?_, ?_, ?_, ?_⟩
  · intro σ gw st s h
    rw [check_parse_err σ gw st s h]
    exact containsSubstr_append_left _ _ _ errPrefix_contains
  · intro σ gw st i e h
    rw [book_parse_err σ gw st i e h]
    exact containsSubstr_append_left _ _ _ bookErrPrefix_contains
  · intro σ gw st i tv sv h0 h1
    rw [book_iso_err σ gw st i tv sv h0 h1]
    exact containsSubstr_append_left _ _ _ bookErrPrefix_contains
  · intro σ gw st s m t e h1 h2 h3
    rw [check_fst_gwerr σ gw st s m t e h1 h2 h3]
    exact containsSubstr_append_left _ _ _ errPrefix_contains
  · intro σ gw st i tv sv m t e h0 h1 h2 h3
    rw [book_run σ gw st i tv sv t e h0 h1 h2, h3]
    exact containsSubstr_append_left _ _ _ bookErrPrefix_contains

/-- C3 witness: concrete failing inputs — an unparsable time string for both
tools and an unreachable backend for both tools — each produce a result
containing "error". -/
theorem tools_return_error_strings_witness :
    containsSubstr (check_calendar_availability emptyGateway () "tomorrow 4pm").1
      "error" = true ∧
    containsSubstr (book_appointment emptyGateway () "not a payload").1
      "error" = true ∧
    containsSubstr (book_appointment emptyGateway ()
      (renderPayload "tomorrow 4pm" "Demo")).1 "error" = true ∧
    containsSubstr (check_calendar_availability failGateway ()
      "2025-01-01T10:00:00+05:30").1 "error" = true ∧
    containsSubstr (book_appointment failGateway ()
      (renderPayload "2025-01-01T10:00:00+05:30" "Demo")).1 "error" = true :=
  ⟨tools_return_error_strings.1 Unit emptyGateway () "tomorrow 4pm" (by decide),
   tools_return_error_strings.2.1 Unit emptyGateway () "not a payload"
     "Expecting value: line 1 column 1 (char 0)" (by decide),
   tools_return_error_strings.2.2.1 Unit emptyGateway ()
     (renderPayload "tomorrow 4pm" "Demo") "tomorrow 4pm" "Demo"
     (by decide) (by decide),
   tools_return_error_strings.2.2.2.1 Unit failGateway ()
     "2025-01-01T10:00:00+05:30" "HttpError 503" sampleStart sampleEnd
     (by decide) (by decide) rfl,
   tools_return_error_strings.2.2.2.2 Unit failGateway ()
     (renderPayload "2025-01-01T10:00:00+05:30" "Demo")
     "2025-01-01T10:00:00+05:30" "Demo" "HttpError 503" sampleStart sampleEnd
     (by decide) (by decide) (by decide) rfl⟩

/-- C4 (confirmed): the booking tool normalises single quotes to double
quotes before structured parsing, so the Python-dict-literal payload with
time 2025-01-01T10:00:00+05:30 and summary Demo parses successfully, and for
any backend the tool issues exactly one create-event call with summary
"Demo", start exactly 2025-01-01T10:00:00+05:30, and end one hour later. -/
theorem booking_payload_demo (σ : Type) (gw : Gateway σ) (st : σ) :
    json_loads (replaceChar squoteChar dquoteChar (renderPayload sampleIso "Demo")) =
      some [("time", sampleIso), ("summary", "Demo")] ∧
    parseBookingInput (renderPayload sampleIso "Demo") =
      Except.ok (sampleIso, "Demo") ∧
    (book_appointment gw st (renderPayload sampleIso "Demo")).2.2 =
      [GatewayCall.insert "Demo" sampleStart sampleEnd] := by
  refine ⟨by decide, by decide, ?_⟩
  exact book_log σ gw st (renderPayload sampleIso "Demo") sampleIso "Demo"
    sampleStart sampleEnd (by decide) (by decide) (by decide)

theorem chat_snd_self (agent : String → List Msg → Except String String)
    (h : HistTable) (sid msg : String) :
    getHistory (chat_with_agent agent h sid msg).2 sid =
      match agent msg (getHistory h sid) with
      | Except.error _ => getHistory h sid
      | Except.ok o =>
        getHistory h sid ++ [Msg.mk Role.user msg, Msg.mk Role.assistant o] := by
  simp only [chat_with_agent, getHistory_ensure_self]
  cases hag : agent msg (getHistory h sid) with
  | error e => exact getHistory_ensure_self h sid
  | ok o => exact getHistory_set_self _ _ _

/-- C5 (confirmed): under read-after-write consistency of the gateway — the
insert succeeds and a subsequent list query over the same slot range (a
range intersecting itself) returns the inserted event — booking a slot and
then checking availability of the same start instant yields a busy result
that lists the just-booked summary, quoted. -/
theorem book_then_check_busy (σ : Type) (gw : Gateway σ) (st : σ)
    (bs ts tv sv link : String) (t e : DateTime) (st2 : σ) (evs : List Event)
    (h0 : parseBookingInput bs = Except.ok (tv, sv))
    (h1 : fromisoformat tv = some t)
    (h2 : addHour t = some e)
    (h3 : fromisoformat (strip ts) = some t)
    (h4 : gw.insertEvent st sv t e = Except.ok (link, st2))
    (h5 : gw.listEvents st2 t e = Except.ok evs)
    (h6 : Event.mk sv ∈ evs) :
    (book_appointment gw st bs).2.1 = st2 ∧
    containsSubstr (check_calendar_availability gw st2 ts).1 "busy" = true ∧
    containsSubstr (check_calendar_availability gw st2 ts).1
      (squote ++ sv ++ squote) = true := by
  have hevs : evs ≠ [] := by
    intro hn
    rw [hn] at h6
    cases h6
  have hfst := check_fst_ok σ gw st2 ts t e evs h3 h2 h5
  refine ⟨?_, ?_, ?_⟩
  · rw [book_run σ gw st bs tv sv t e h0 h1 h2, h4]
  · rw [hfst, if_neg hevs]
    unfold busyMsg
    apply containsSubstr_append_left
    apply containsSubstr_append_left
    decide
  · rw [hfst, if_neg hevs]
    unfold busyMsg
    apply containsSubstr_append_left
    apply containsSubstr_append_right
    have hmem := List.mem_map_of_mem quoteSummary h6
    exact joinComma_contains _ _ hmem

/-- C5 witness: booking the sample payload against the consistent in-memory
backend and then checking the same instant reports busy and lists the
quoted summary. -/
theorem book_then_check_busy_witness :
    (book_appointment recordGateway [] (renderPayload sampleIso "Demo")).2.1 =
      [("Demo", sampleStart, sampleEnd)] ∧
    containsSubstr (check_calendar_availability recordGateway
      [("Demo", sampleStart, sampleEnd)] "2025-01-01T10:00:00+05:30").1
      "busy" = true ∧
    containsSubstr (check_calendar_availability recordGateway
      [("Demo", sampleStart, sampleEnd)] "2025-01-01T10:00:00+05:30").1
      (squote ++ "Demo" ++ squote) = true :=
  book_then_check_busy _ recordGateway [] (renderPayload sampleIso "Demo")
    "2025-01-01T10:00:00+05:30" sampleIso "Demo"
    "https://www.google.com/calendar/event" sampleStart sampleEnd
    [("Demo", sampleStart, sampleEnd)] [Event.mk "Demo"]
    (by decide) (by decide) (by decide) (by decide) rfl rfl (by decide)

/-- C6 (confirmed): a chat request on one session neither modifies another
session's history (first part) nor reads it — its response and its own new
history depend only on its own prior history (second part); and on a single
session, after any number of completed exchanges the context assembled for
the next exchange is the original history followed by every user and
assistant message of those exchanges in append order (third part). -/
theorem session_isolation_and_order
    (agent : String → List Msg → Except String String)
    (h : HistTable) (sid sid2 msg : String) (hne : sid2 ≠ sid) :
    (getHistory (chat_with_agent agent h sid msg).2 sid2 = getHistory h sid2) ∧
    (∀ h2 : HistTable, getHistory h2 sid = getHistory h sid →
      (chat_with_agent agent h2 sid msg).1 = (chat_with_agent agent h sid msg).1 ∧
      getHistory (chat_with_agent agent h2 sid msg).2 sid =
        getHistory (chat_with_agent agent h sid msg).2 sid) ∧
    (∀ (msgs : List String) (hf : HistTable) (outs : List String),
      runChats agent h sid msgs = some (hf, outs) →
      assembledContext hf sid = getHistory h sid ++ turnsOf msgs outs) := by
  refine ⟨chat_snd_other agent h sid msg sid2 hne, ?_, ?_⟩
  · intro h2 hsame
    constructor
    · rw [chat_fst, chat_fst, hsame]
    · rw [chat_snd_self, chat_snd_self, hsame]
  · intro msgs hf outs hr
    unfold assembledContext
    rw [getHistory_ensure_self]
    exact runChats_history agent msgs h sid hf outs hr

/-- C6 witness: a request on session a leaves session b's history intact,
and after two completed exchanges on session a the assembled context is
exactly the four messages of those exchanges in order. -/
theorem session_isolation_and_order_witness :
    getHistory (chat_with_agent (constAgent "hello")
      [("b", [Msg.mk Role.user "x"])] "a" "hi").2 "b" =
      getHistory [("b", [Msg.mk Role.user "x"])] "b" ∧
    assembledContext
      [("a", [Msg.mk Role.user "m1", Msg.mk Role.assistant "hello",
              Msg.mk Role.user "m2", Msg.mk Role.assistant "hello"])] "a" =
      getHistory ([] : HistTable) "a" ++ turnsOf ["m1", "m2"] ["hello", "hello"] :=
  ⟨(session_isolation_and_order (constAgent "hello")
      [("b", [Msg.mk Role.user "x"])] "a" "b" "hi" (by decide)).1,
   (session_isolation_and_order (constAgent "hello") [] "a" "b" "hi"
      (by decide)).2.2 ["m1", "m2"]
      [("a", [Msg.mk Role.user "m1", Msg.mk Role.assistant "hello",
              Msg.mk Role.user "m2", Msg.mk Role.assistant "hello"])]
      ["hello", "hello"] rfl⟩

/-- C7 counterexample: with a Turn defined as a single (role, text) message
unit, one completed chat turn takes the history of a fresh session from
length 0 to length 2 — the user message and the assistant message — not to
length 1 as the claim states. -/
theorem chat_turn_length_cex :
    (getHistory ([] : HistTable) "s").length = 0 ∧
    (chat_with_agent (constAgent "hello") [] "s" "hi").1 = Except.ok "hello" ∧
    (getHistory (chat_with_agent (constAgent "hello") [] "s" "hi").2 "s").length
      = 2 ∧
    ((getHistory (chat_with_agent (constAgent "hello") [] "s" "hi").2 "s").length
      = (getHistory ([] : HistTable) "s").length + 1 → False) :=
  ⟨rfl, rfl, rfl, by decide⟩

/-- C7 (amended): one completed chat turn appends exactly the user and the
assistant message, taking the session's history from length N to length
N + 2 (not N + 1); no history entry is ever removed or mutated — the old
history is an unchanged prefix and other sessions keep their histories —
and no session is destroyed. -/
theorem chat_turn_append_shape
    (agent : String → List Msg → Except String String)
    (h : HistTable) (sid msg out : String) (h2 : HistTable)
    (hc : chat_with_agent agent h sid msg = (Except.ok out, h2)) :
    getHistory h2 sid =
      getHistory h sid ++ [Msg.mk Role.user msg, Msg.mk Role.assistant out] ∧
    (getHistory h2 sid).length = (getHistory h sid).length + 2 ∧
    (∀ x, hasSession h x = true → hasSession h2 x = true) ∧
    (∀ x, x ≠ sid → getHistory h2 x = getHistory h x) := by
  obtain ⟨hh, hag⟩ := chat_ok agent h sid msg out h2 hc
  refine ⟨chat_ok_self agent h sid msg out h2 hc, ?_, ?_, ?_⟩
  · rw [chat_ok_self agent h sid msg out h2 hc]
    simp
  · intro x hx
    rw [hh]
    exact hasSession_set_mono _ _ _ _ (hasSession_ensure_mono h sid x hx)
  · intro x hx
    have hother := chat_snd_other agent h sid msg x hx
    rw [hc] at hother
    simpa using hother

/-- C7 witness: the completed turn of the counterexample run has exactly the
append shape N to N + 2. -/
theorem chat_turn_append_shape_witness :
    getHistory [("s", [Msg.mk Role.user "hi", Msg.mk Role.assistant "hello"])]
      "s" = getHistory ([] : HistTable) "s" ++
        [Msg.mk Role.user "hi", Msg.mk Role.assistant "hello"] ∧
    (getHistory [("s", [Msg.mk Role.user "hi", Msg.mk Role.assistant "hello"])]
      "s").length = (getHistory ([] : HistTable) "s").length + 2 :=
  let H := chat_turn_append_shape (constAgent "hello") [] "s" "hi" "hello"
    [("s", [Msg.mk Role.user "hi", Msg.mk Role.assistant "hello"])] rfl
  ⟨H.1, H.2.1⟩

/-- C8 (confirmed): for every payload that parses to a bookable time and
summary, one invocation of the booking tool issues exactly one gateway
create-event call and no list query — no deduplication or existence check —
and two invocations with identical input against a live backend append two
separate events to the calendar store. -/
theorem booking_not_idempotent (σ : Type) (gw : Gateway σ) (st : σ)
    (i tv sv : String) (t e : DateTime)
    (h0 : parseBookingInput i = Except.ok (tv, sv))
    (h1 : fromisoformat tv = some t) (h2 : addHour t = some e) :
    (book_appointment gw st i).2.2 = [GatewayCall.insert sv t e] ∧
    (∀ s0 : List (String × DateTime × DateTime),
      (book_appointment recordGateway
        ((book_appointment recordGateway s0 i).2.1) i).2.1 =
        s0 ++ [(sv, t, e), (sv, t, e)]) := by
  refine ⟨book_log σ gw st i tv sv t e h0 h1 h2, ?_⟩
  have hstate : ∀ s1 : List (String × DateTime × DateTime),
      (book_appointment recordGateway s1 i).2.1 = s1 ++ [(sv, t, e)] := by
    intro s1
    rw [book_run _ recordGateway s1 i tv sv t e h0 h1 h2]
    rfl
  intro s0
  rw [hstate s0, hstate (s0 ++ [(sv, t, e)])]
  simp

/-- C8 witness: booking the sample payload twice against the in-memory
backend creates two events. -/
theorem booking_not_idempotent_witness :
    (book_appointment emptyGateway () (renderPayload sampleIso "Demo")).2.2 =
      [GatewayCall.insert "Demo" sampleStart sampleEnd] ∧
    (book_appointment recordGateway
      ((book_appointment recordGateway [] (renderPayload sampleIso "Demo")).2.1)
      (renderPayload sampleIso "Demo")).2.1 =
      [("Demo", sampleStart, sampleEnd), ("Demo", sampleStart, sampleEnd)] :=
  let H := booking_not_idempotent Unit emptyGateway ()
    (renderPayload sampleIso "Demo") sampleIso "Demo" sampleStart sampleEnd
    (by decide) (by decide) (by decide)
  ⟨H.1, H.2 []⟩

/-- C9 (confirmed): if the reasoning-engine invocation raises inside the
chat endpoint, no user or assistant turn is appended to any session's
history, but for a previously unseen session id the lazily created empty
entry is already in the process-wide table and remains there. -/
theorem chat_engine_failure_no_append
    (agent : String → List Msg → Except String String)
    (h : HistTable) (sid msg e : String) (h2 : HistTable)
    (hc : chat_with_agent agent h sid msg = (Except.error e, h2)) :
    h2 = ensureSession h sid ∧
    getHistory h2 sid = getHistory h sid ∧
    hasSession h2 sid = true ∧
    (∀ x, getHistory h2 x = getHistory h x) := by
  obtain ⟨hh, hag⟩ := chat_err agent h sid msg e h2 hc
  subst hh
  refine ⟨rfl, getHistory_ensure_self h sid, hasSession_ensure_self h sid, ?_⟩
  intro x
  exact getHistory_ensure_other h sid x

/-- C9 witness: a failing engine on a fresh session leaves exactly the empty
entry in the table and appends nothing. -/
theorem chat_engine_failure_no_append_witness :
    ([("s", [])] : HistTable) = ensureSession [] "s" ∧
    getHistory [("s", [])] "s" = getHistory ([] : HistTable) "s" ∧
    hasSession [("s", [])] "s" = true :=
  let H := chat_engine_failure_no_append failAgent [] "s" "m" "engine failure"
    [("s", [])] rfl
  ⟨H.1, H.2.1, H.2.2.1⟩

/-- C10 counterexample: a summary value containing single quotes can survive
quote normalisation by re-forming valid JSON.  With summary value
a-quote-comma-quote-b-quote-colon-quote-c the normalised blob parses
successfully (summary "a" plus an injected extra key) and the tool does
issue a create-event call — so it is not true that every payload whose
summary contains a single quote fails to parse and suppresses the gateway
call. -/
theorem booking_quote_injection_cex :
    containsSubstr ("a" ++ squote ++ ", " ++ squote ++ "b" ++ squote ++ ": " ++
      squote ++ "c") squote = true ∧
    parseBookingInput (renderPayload sampleIso
      ("a" ++ squote ++ ", " ++ squote ++ "b" ++ squote ++ ": " ++ squote ++ "c")) =
      Except.ok (sampleIso, "a") ∧
    (book_appointment emptyGateway () (renderPayload sampleIso
      ("a" ++ squote ++ ", " ++ squote ++ "b" ++ squote ++ ": " ++ squote ++
        "c"))).2.2 =
      [GatewayCall.insert "a" sampleStart sampleEnd] :=
  ⟨by decide, by decide, by decide⟩

/-- C10 (amended): quote normalisation replaces every single-quote character
of the payload (none survives it), and for the example summary containing an
apostrophe — John-apostrophe-s meeting — the normalised blob is no longer
valid JSON: structured parsing fails and the booking tool returns an error
string without issuing any gateway call.  (By the counterexample above, a
single quote in the summary does not force this failure for every payload.) -/
theorem booking_quote_apostrophe (σ : Type) (gw : Gateway σ) (st : σ) :
    containsSubstr (replaceChar squoteChar dquoteChar
      (renderPayload sampleIso ("John" ++ squote ++ "s meeting"))) squote
      = false ∧
    parseBookingInput (renderPayload sampleIso ("John" ++ squote ++ "s meeting"))
      = Except.error "Expecting value: line 1 column 1 (char 0)" ∧
    book_appointment gw st (renderPayload sampleIso
      ("John" ++ squote ++ "s meeting")) =
      (bookErrPrefix ++ "Expecting value: line 1 column 1 (char 0)", st, []) ∧
    containsSubstr (book_appointment gw st
      (renderPayload sampleIso ("John" ++ squote ++ "s meeting"))).1 "error"
      = true := by
  refine ⟨by decide, by decide, ?_, ?_⟩
  · exact book_parse_err σ gw st _ _ (by decide)
  · rw [book_parse_err σ gw st _
      "Expecting value: line 1 column 1 (char 0)" (by decide)]
    exact containsSubstr_append_left _ _ _ bookErrPrefix_contains

